import Mathlib

/-!
Shallow embedding of the hook event dispatch engine of `claude-tools`.

The definitions below are translated from the repository's source:
* `src/lib/schemas/hooks.ts` — payload and response schemas (zod),
* `src/lib/schemas/permissions.ts` — the permission descriptor schema,
* `src/unnamed/part_002` — `HooksManager` (`use`, `executeHooks`,
  `getPlugins`) and the `hooks(config)` constructor,
* `src/unnamed/part_001` — `runHooksFile`'s translation of a permission
  descriptor into `--allow-*` flags,
* `src/examples/example-hooks.ts` — `main`'s aggregation of the response
  sequence into the effective verdict.

Runtime JavaScript values that cross a validation boundary are modelled by
a small JSON-like value type `Json`; zod `.parse` calls become `Except`
-valued parse functions (the exact wording of a zod issue message is a
model choice; the accept/reject behaviour follows the schemas).  Handler
functions are arbitrary Lean functions returning a `HandlerResult`, which
models a normally returned JavaScript value (possibly `undefined`/falsy,
possibly not a well-formed response) or a thrown error.
-/

namespace ClaudeTools

/-- JSON-like runtime values (the shape of untrusted payloads and of values
returned by plugin handlers before validation). -/
inductive Json where
  | null
  | bool (b : Bool)
  | num (n : Int)
  | str (s : String)
  | arr (elems : List Json)
  | obj (fields : List (String × Json))

/-- JavaScript truthiness of a `Json` value (used by `if (result)` in
`executeHooks` and by the `||` fallbacks). -/
def Json.truthy : Json → Bool
  | .null => false
  | .bool b => b
  | .num n => n != 0
  | .str s => s ≠ ""
  | .arr _ => true
  | .obj _ => true

/-- Property lookup on a JSON object's field list. -/
def getField (fields : List (String × Json)) (key : String) : Option Json :=
  (fields.find? (fun kv => kv.1 == key)).map (·.2)

/-- Require the value to be an object (zod `z.object`). -/
def Json.asObj : Json → Except String (List (String × Json))
  | .obj fields => .ok fields
  | _ => .error "Expected object"

/-- Required string field (`z.string()`). -/
def reqString (fields : List (String × Json)) (key : String) :
    Except String String :=
  match getField fields key with
  | some (.str s) => .ok s
  | some _ => .error (key ++ ": Expected string")
  | none => .error (key ++ ": Required")

/-- Optional string field (`z.string().optional()`). -/
def optString (fields : List (String × Json)) (key : String) :
    Except String (Option String) :=
  match getField fields key with
  | none => .ok none
  | some (.str s) => .ok (some s)
  | some _ => .error (key ++ ": Expected string")

/-- Required record field (`z.record(z.unknown())`). -/
def reqRecord (fields : List (String × Json)) (key : String) :
    Except String (List (String × Json)) :=
  match getField fields key with
  | some (.obj o) => .ok o
  | some _ => .error (key ++ ": Expected object")
  | none => .error (key ++ ": Required")

/-- Optional record field (`z.record(z.unknown()).optional()`). -/
def optRecord (fields : List (String × Json)) (key : String) :
    Except String (Option (List (String × Json))) :=
  match getField fields key with
  | none => .ok none
  | some (.obj o) => .ok (some o)
  | some _ => .error (key ++ ": Expected object")

/-- Required number field (`z.number()`). -/
def reqNumber (fields : List (String × Json)) (key : String) :
    Except String Int :=
  match getField fields key with
  | some (.num n) => .ok n
  | some _ => .error (key ++ ": Expected number")
  | none => .error (key ++ ": Required")

/-- `ContextSchema` of `src/lib/schemas/hooks.ts`. -/
structure Context where
  session_id : String
  user_id : Option String := none
  working_directory : String

/-- Parse a `Context` (`ContextSchema.parse`). -/
def parseContext (j : Json) : Except String Context := do
  let fields ← j.asObj
  let sid ← reqString fields "session_id"
  let uid ← optString fields "user_id"
  let wd ← reqString fields "working_directory"
  .ok { session_id := sid, user_id := uid, working_directory := wd }

/-- Required `context` field shared by all payload schemas. -/
def reqContext (fields : List (String × Json)) : Except String Context :=
  match getField fields "context" with
  | some j => parseContext j
  | none => .error "context: Required"

/-- `NotificationPayloadSchema`'s `type` enumeration. -/
inductive NotificationType where
  | permission_request
  | idle
  | error
deriving DecidableEq

/-- `reason` enumeration of `StopPayloadSchema` / `SubagentStopPayloadSchema`. -/
inductive StopReason where
  | completed
  | error
  | interrupted
deriving DecidableEq

/-- `PreToolUsePayloadSchema`. -/
structure PreToolUsePayload where
  tool_name : String
  tool_input : List (String × Json)
  context : Context

/-- `PostToolUsePayloadSchema` (`tool_output` is `z.unknown()`, which also
accepts an absent field). -/
structure PostToolUsePayload where
  tool_name : String
  tool_input : List (String × Json)
  tool_output : Option Json := none
  context : Context

/-- `NotificationPayloadSchema`. -/
structure NotificationPayload where
  type : NotificationType
  message : String
  context : Context

/-- `UserPromptSubmitPayloadSchema`. -/
structure UserPromptSubmitPayload where
  prompt : String
  context : Context

/-- `StopPayloadSchema`. -/
structure StopPayload where
  reason : StopReason
  context : Context

/-- `SubagentStopPayloadSchema`. -/
structure SubagentStopPayload where
  subagent_type : String
  reason : StopReason
  context : Context

/-- `PreCompactPayloadSchema`. -/
structure PreCompactPayload where
  context_size : Int
  context : Context

/-- `SessionStartPayloadSchema`. -/
structure SessionStartPayload where
  context : Context

def parsePreToolUsePayload (j : Json) : Except String PreToolUsePayload := do
  let fields ← j.asObj
  let tn ← reqString fields "tool_name"
  let ti ← reqRecord fields "tool_input"
  let ctx ← reqContext fields
  .ok { tool_name := tn, tool_input := ti, context := ctx }

def parsePostToolUsePayload (j : Json) : Except String PostToolUsePayload := do
  let fields ← j.asObj
  let tn ← reqString fields "tool_name"
  let ti ← reqRecord fields "tool_input"
  let ctx ← reqContext fields
  .ok { tool_name := tn, tool_input := ti,
        tool_output := getField fields "tool_output", context := ctx }

def parseNotificationType (fields : List (String × Json)) :
    Except String NotificationType :=
  match getField fields "type" with
  | some (.str "permission_request") => .ok .permission_request
  | some (.str "idle") => .ok .idle
  | some (.str "error") => .ok .error
  | some (.str _) => .error "type: Invalid enum value"
  | some _ => .error "type: Expected string"
  | none => .error "type: Required"

def parseStopReason (fields : List (String × Json)) :
    Except String StopReason :=
  match getField fields "reason" with
  | some (.str "completed") => .ok .completed
  | some (.str "error") => .ok .error
  | some (.str "interrupted") => .ok .interrupted
  | some (.str _) => .error "reason: Invalid enum value"
  | some _ => .error "reason: Expected string"
  | none => .error "reason: Required"

def parseNotificationPayload (j : Json) : Except String NotificationPayload := do
  let fields ← j.asObj
  let ty ← parseNotificationType fields
  let msg ← reqString fields "message"
  let ctx ← reqContext fields
  .ok { type := ty, message := msg, context := ctx }

def parseUserPromptSubmitPayload (j : Json) :
    Except String UserPromptSubmitPayload := do
  let fields ← j.asObj
  let pr ← reqString fields "prompt"
  let ctx ← reqContext fields
  .ok { prompt := pr, context := ctx }

def parseStopPayload (j : Json) : Except String StopPayload := do
  let fields ← j.asObj
  let rs ← parseStopReason fields
  let ctx ← reqContext fields
  .ok { reason := rs, context := ctx }

def parseSubagentStopPayload (j : Json) : Except String SubagentStopPayload := do
  let fields ← j.asObj
  let st ← reqString fields "subagent_type"
  let rs ← parseStopReason fields
  let ctx ← reqContext fields
  .ok { subagent_type := st, reason := rs, context := ctx }

def parsePreCompactPayload (j : Json) : Except String PreCompactPayload := do
  let fields ← j.asObj
  let cs ← reqNumber fields "context_size"
  let ctx ← reqContext fields
  .ok { context_size := cs, context := ctx }

def parseSessionStartPayload (j : Json) : Except String SessionStartPayload := do
  let fields ← j.asObj
  let ctx ← reqContext fields
  .ok { context := ctx }

/-- `action` enumeration of `HookResponseSchema`. -/
inductive HookAction where
  | «continue»
  | block
  | modify
deriving DecidableEq

/-- `HookResponse` (`HookResponseSchema` of `src/lib/schemas/hooks.ts`). -/
structure HookResponse where
  action : HookAction
  message : Option String := none
  modified_input : Option (List (String × Json)) := none
  context : Option (List (String × Json)) := none

/-- `HookResponseSchema.parse` applied to a raw runtime value. -/
def parseHookResponse (j : Json) : Except String HookResponse := do
  let fields ← j.asObj
  let a ← (match getField fields "action" with
    | some (.str "continue") => Except.ok HookAction.«continue»
    | some (.str "block") => Except.ok HookAction.block
    | some (.str "modify") => Except.ok HookAction.modify
    | some (.str _) => Except.error "action: Invalid enum value"
    | some _ => Except.error "action: Expected string"
    | none => Except.error "action: Required")
  let msg ← optString fields "message"
  let mi ← optRecord fields "modified_input"
  let ctx ← optRecord fields "context"
  .ok { action := a, message := msg, modified_input := mi, context := ctx }

/-- A validated payload, tagged by the event type it was parsed for (the
`validatedPayload` of `executeHooks` together with the `eventType` that the
per-plugin `switch` dispatches on). -/
inductive Payload where
  | preToolUse (p : PreToolUsePayload)
  | postToolUse (p : PostToolUsePayload)
  | notification (p : NotificationPayload)
  | userPromptSubmit (p : UserPromptSubmitPayload)
  | stop (p : StopPayload)
  | subagentStop (p : SubagentStopPayload)
  | preCompact (p : PreCompactPayload)
  | sessionStart (p : SessionStartPayload)

/-- The validation `switch` at the top of `HooksManager.executeHooks`
(`src/unnamed/part_002`, lines 110–147).  The `default` branch's
`throw new Error(...)` is caught by the same `catch` as a zod failure, so
both become the error of this `Except`. -/
def validatePayload (eventType : String) (payload : Json) :
    Except String Payload :=
  if eventType = "PreToolUse" then
    (parsePreToolUsePayload payload).map .preToolUse
  else if eventType = "PostToolUse" then
    (parsePostToolUsePayload payload).map .postToolUse
  else if eventType = "Notification" then
    (parseNotificationPayload payload).map .notification
  else if eventType = "UserPromptSubmit" then
    (parseUserPromptSubmitPayload payload).map .userPromptSubmit
  else if eventType = "Stop" then
    (parseStopPayload payload).map .stop
  else if eventType = "SubagentStop" then
    (parseSubagentStopPayload payload).map .subagentStop
  else if eventType = "PreCompact" then
    (parsePreCompactPayload payload).map .preCompact
  else if eventType = "SessionStart" then
    (parseSessionStartPayload payload).map .sessionStart
  else
    .error ("Unknown event type: " ++ eventType)

/-- The runtime outcome of invoking a plugin handler (a JavaScript function
call): either it threw, or it returned a value — `none` models returning
`undefined` (or `null` via `Json.null`, both falsy). -/
inductive HandlerResult where
  | throws (msg : String)
  | value (v : Option Json)

/-- `HooksPlugin` interface of `src/unnamed/part_002`.  Handlers are typed
against the validated payload (as in the source's casts) but may return any
runtime value or throw, which `HandlerResult` captures.  `onLoad` is a
thunk whose invocation either succeeds or throws. -/
structure HooksPlugin where
  name : String
  version : Option String := none
  description : Option String := none
  onPreToolUse : Option (PreToolUsePayload → HandlerResult) := none
  onPostToolUse : Option (PostToolUsePayload → HandlerResult) := none
  onNotification : Option (NotificationPayload → HandlerResult) := none
  onUserPromptSubmit : Option (UserPromptSubmitPayload → HandlerResult) := none
  onStop : Option (StopPayload → HandlerResult) := none
  onSubagentStop : Option (SubagentStopPayload → HandlerResult) := none
  onPreCompact : Option (PreCompactPayload → HandlerResult) := none
  onSessionStart : Option (SessionStartPayload → HandlerResult) := none
  onLoad : Option (Except String Unit) := none
  onUnload : Option (Except String Unit) := none

/-- `await plugin.onLoad?.()` — absent `onLoad` is a no-op. -/
def loadOutcome (p : HooksPlugin) : Except String Unit :=
  p.onLoad.getD (.ok ())

/-- The per-plugin `switch (eventType)` of `executeHooks`
(`src/unnamed/part_002`, lines 155–194): look up the handler bound to the
event and invoke it on the validated payload.  `none` means no handler is
bound (so `result` stays `undefined`). -/
def invokeHandler (p : HooksPlugin) (vp : Payload) : Option HandlerResult :=
  match vp with
  | .preToolUse pl => p.onPreToolUse.map (fun h => h pl)
  | .postToolUse pl => p.onPostToolUse.map (fun h => h pl)
  | .notification pl => p.onNotification.map (fun h => h pl)
  | .userPromptSubmit pl => p.onUserPromptSubmit.map (fun h => h pl)
  | .stop pl => p.onStop.map (fun h => h pl)
  | .subagentStop pl => p.onSubagentStop.map (fun h => h pl)
  | .preCompact pl => p.onPreCompact.map (fun h => h pl)
  | .sessionStart pl => p.onSessionStart.map (fun h => h pl)

/-- Effect of one iteration of the plugin loop on the result sequence. -/
inductive PluginOutcome where
  | skip
  | push (r : HookResponse)
  | pushBreak (r : HookResponse)

/-- One iteration of the `for (const plugin of this.plugins)` loop of
`executeHooks` (`src/unnamed/part_002`, lines 149–222): run `onLoad`,
invoke the bound handler, and on a truthy returned value validate it
against `HookResponseSchema`; every failure is caught and converted into a
`continue` diagnostic.  `pushBreak` is the `break` taken on a validated
`block` response. -/
def stepPlugin (vp : Payload) (p : HooksPlugin) : PluginOutcome :=
  match loadOutcome p with
  | .error e =>
      .push { action := .«continue», message := some ("Plugin error: " ++ e) }
  | .ok () =>
    match invokeHandler p vp with
    | none => .skip
    | some (.throws e) =>
        .push { action := .«continue», message := some ("Plugin error: " ++ e) }
    | some (.value none) => .skip
    | some (.value (some j)) =>
      if j.truthy then
        match parseHookResponse j with
        | .ok r => if r.action = .block then .pushBreak r else .push r
        | .error e =>
            .push { action := .«continue»,
                    message := some ("Plugin returned invalid response: " ++ e) }
      else .skip

/-- The plugin loop of `executeHooks`: fold `stepPlugin` over the ordered
plugin list, appending produced responses and stopping at a `block`. -/
def executeLoop (plugins : List HooksPlugin) (vp : Payload) :
    List HookResponse :=
  match plugins with
  | [] => []
  | p :: ps =>
    match stepPlugin vp p with
    | .skip => executeLoop ps vp
    | .push r => r :: executeLoop ps vp
    | .pushBreak r => [r]

/-- Names of the plugins the loop actually reaches (for each of these the
loop body runs: `onLoad` is invoked and the bound handler, if any, is
invoked).  After a `block` response the loop body runs for no further
plugin. -/
def invokedLoop (plugins : List HooksPlugin) (vp : Payload) : List String :=
  match plugins with
  | [] => []
  | p :: ps =>
    match stepPlugin vp p with
    | .pushBreak _ => [p.name]
    | _ => p.name :: invokedLoop ps vp

/-- `PermissionSchema`'s `allow` capability values
(`src/lib/schemas/permissions.ts`): a list of resource scopes or a
boolean. -/
inductive PermValue where
  | list (xs : List String)
  | bool (b : Bool)

/-- `allow` section of `PermissionSchema`. -/
structure AllowPerms where
  read : Option PermValue := none
  write : Option PermValue := none
  net : Option PermValue := none
  env : Option PermValue := none
  run : Option PermValue := none
  sys : Option PermValue := none

/-- `deny` section of `PermissionSchema` (lists only). -/
structure DenyPerms where
  read : Option (List String) := none
  write : Option (List String) := none
  net : Option (List String) := none
  env : Option (List String) := none
  run : Option (List String) := none
  sys : Option (List String) := none

/-- `PermissionSchema` / `Permissions`. -/
structure Permissions where
  allow : Option AllowPerms := none
  deny : Option DenyPerms := none

/-- Flags pushed for one capability by `runHooksFile`
(`src/unnamed/part_001`, lines 335–395): `if (permissions.allow.X)` is a
JavaScript truthiness test (`undefined` and `false` are falsy, any array is
truthy), then `Array.isArray` scopes one flag per listed resource, else
`=== true` pushes the unscoped flag. -/
def capFlags (capName : String) (v : Option PermValue) : List String :=
  match v with
  | none => []
  | some (.list xs) => xs.map (fun r => "--allow-" ++ capName ++ "=" ++ r)
  | some (.bool true) => ["--allow-" ++ capName]
  | some (.bool false) => []

/-- The permission flags `runHooksFile` pushes onto the `deno run` argument
list (`src/unnamed/part_001`, lines 335–395), in source order
read, write, net, env, run, sys.  The `deny` section of the descriptor is
never read by `runHooksFile`. -/
def permissionFlags (perms : Permissions) : List String :=
  match perms.allow with
  | none => []
  | some a =>
      capFlags "read" a.read ++ capFlags "write" a.write ++
      capFlags "net" a.net ++ capFlags "env" a.env ++
      capFlags "run" a.run ++ capFlags "sys" a.sys

/-- `HooksManager` (`src/unnamed/part_002`): the ordered plugin list and
the optional permissions. -/
structure HooksManager where
  plugins : List HooksPlugin := []
  permissions : Option Permissions := none

/-- `new HooksManager(config)`: `this.plugins = config?.plugins || []`. -/
def HooksManager.ofConfig (plugins : Option (List HooksPlugin))
    (permissions : Option Permissions) : HooksManager :=
  { plugins := plugins.getD [], permissions := permissions }

/-- `HooksManager.use`: pushes the plugin onto the ordered list and returns
the manager (`src/unnamed/part_002`, lines 68–72).  There is no check of
any kind on the plugin. -/
def HooksManager.use (m : HooksManager) (p : HooksPlugin) : HooksManager :=
  { m with plugins := m.plugins ++ [p] }

/-- `HooksManager.getPlugins` returns (a copy of) the plugin list. -/
def HooksManager.getPlugins (m : HooksManager) : List HooksPlugin :=
  m.plugins

/-- `HooksManager.executeHooks` (`src/unnamed/part_002`, lines 104–225):
validate the payload — any validation failure (including the unknown event
type throw) is caught and returned as a single `continue` diagnostic — then
run the plugin loop. -/
def HooksManager.executeHooks (m : HooksManager) (eventType : String)
    (payload : Json) : List HookResponse :=
  match validatePayload eventType payload with
  | .error e =>
      [{ action := .«continue», message := some ("Invalid payload: " ++ e) }]
  | .ok vp => executeLoop m.plugins vp

/-- Names of the plugins whose loop body runs during
`executeHooks` — when validation fails the loop is never entered. -/
def HooksManager.invokedHooks (m : HooksManager) (eventType : String)
    (payload : Json) : List String :=
  match validatePayload eventType payload with
  | .error _ => []
  | .ok vp => invokedLoop m.plugins vp

/-- Aggregation of `main` in `src/examples/example-hooks.ts`
(lines 160–167): `results.find((r) => r.action === "block") ||
results[results.length - 1] || { action: "continue" }`. -/
def effectiveVerdict (results : List HookResponse) : HookResponse :=
  match results.find? (fun r => r.action == HookAction.block) with
  | some b => b
  | none =>
    match results.getLast? with
    | some r => r
    | none => { action := .«continue» }

/-- The single verdict a dispatch run makes observable: `executeHooks`
followed by `main`'s aggregation. -/
def dispatchVerdict (m : HooksManager) (eventType : String)
    (payload : Json) : HookResponse :=
  effectiveVerdict (m.executeHooks eventType payload)

/-- `HooksConfig` of the `hooks(config)` API (`src/unnamed/part_002`,
lines 233–258). -/
structure HooksConfig where
  permissions : Option Permissions := none
  plugins : Option (List HooksPlugin) := none
  onPreToolUse : Option (PreToolUsePayload → HandlerResult) := none
  onPostToolUse : Option (PostToolUsePayload → HandlerResult) := none
  onNotification : Option (NotificationPayload → HandlerResult) := none
  onUserPromptSubmit : Option (UserPromptSubmitPayload → HandlerResult) := none
  onStop : Option (StopPayload → HandlerResult) := none
  onSubagentStop : Option (SubagentStopPayload → HandlerResult) := none
  onPreCompact : Option (PreCompactPayload → HandlerResult) := none
  onSessionStart : Option (SessionStartPayload → HandlerResult) := none

/-- The synthetic plugin `hooks(config)` builds from the config's own
callbacks (`src/unnamed/part_002`, lines 264–268). -/
def inlinePlugin (c : HooksConfig) : HooksPlugin :=
  { name := "inline-hooks",
    version := some "0.0.0",
    onPreToolUse := c.onPreToolUse,
    onPostToolUse := c.onPostToolUse,
    onNotification := c.onNotification,
    onUserPromptSubmit := c.onUserPromptSubmit,
    onStop := c.onStop,
    onSubagentStop := c.onSubagentStop,
    onPreCompact := c.onPreCompact,
    onSessionStart := c.onSessionStart }

/-- `hooks(config)` (`src/unnamed/part_002`, lines 261–274): a manager
whose plugin list is the inline plugin followed by `config.plugins`. -/
def hooks (c : HooksConfig) : HooksManager :=
  HooksManager.ofConfig (some (inlinePlugin c :: c.plugins.getD []))
    c.permissions

/-- Whether a loop iteration's outcome stops the loop. -/
def PluginOutcome.isBreak : PluginOutcome → Bool
  | .pushBreak _ => true
  | _ => false

/-! ### Concrete fixtures used by witnesses and counterexamples -/

/-- A well-formed `Context`. -/
def ctxEx : Context :=
  { session_id := "s1", user_id := none, working_directory := "/tmp" }

/-- A validated `SessionStart` payload. -/
def vpEx : Payload := .sessionStart { context := ctxEx }

/-- Raw JSON for a well-formed `SessionStart` payload. -/
def sessionStartJson : Json :=
  .obj [("context",
    .obj [("session_id", .str "s1"), ("working_directory", .str "/tmp")])]

/-- Raw JSON for a well-formed `block` response. -/
def blockRespJson : Json :=
  .obj [("action", .str "block"), ("message", .str "nope")]

/-- The parsed form of `blockRespJson`. -/
def blockResp : HookResponse := { action := .block, message := some "nope" }

/-- Plugin whose `SessionStart` handler returns a validated `block`. -/
def blockerPlugin : HooksPlugin :=
  { name := "blocker",
    onSessionStart := some (fun _ => .value (some blockRespJson)) }

/-- Plugin whose `SessionStart` handler returns a validated `continue`. -/
def contPlugin : HooksPlugin :=
  { name := "always-continue",
    onSessionStart :=
      some (fun _ => .value (some (Json.obj [("action", Json.str "continue")]))) }

/-- Plugin whose `SessionStart` handler throws. -/
def throwPlugin : HooksPlugin :=
  { name := "thrower", onSessionStart := some (fun _ => .throws "boom") }

/-- Plugin whose `SessionStart` handler returns `undefined`. -/
def undefinedPlugin : HooksPlugin :=
  { name := "undefined-returner",
    onSessionStart := some (fun _ => .value none) }

/-- Plugin with no handler bound to any event. -/
def noHandlerPlugin : HooksPlugin := { name := "no-handler" }

/-- Plugin with an empty name. -/
def emptyNamePlugin : HooksPlugin := { name := "" }

/-! ### Helper lemmas about the plugin loop -/

theorem step_push_not_block {vp : Payload} {p : HooksPlugin}
    {r : HookResponse} (h : stepPlugin vp p = .push r) :
    r.action ≠ HookAction.block := by
  unfold stepPlugin at h
  repeat' split at h
  all_goals try (cases h)
  all_goals try assumption
  all_goals simp

theorem step_break_block {vp : Payload} {p : HooksPlugin}
    {r : HookResponse} (h : stepPlugin vp p = .pushBreak r) :
    r.action = HookAction.block := by
  unfold stepPlugin at h
  repeat' split at h
  all_goals try (cases h)
  all_goals assumption

theorem executeLoop_append {vp : Payload} {ps : List HooksPlugin}
    (qs : List HooksPlugin)
    (h : ∀ q ∈ ps, (stepPlugin vp q).isBreak = false) :
    executeLoop (ps ++ qs) vp = executeLoop ps vp ++ executeLoop qs vp := by
  induction ps with
  | nil => simp [executeLoop]
  | cons p ps ih =>
    have hp := h p (by simp)
    have hps : ∀ q ∈ ps, (stepPlugin vp q).isBreak = false :=
      fun q hq => h q (by simp [hq])
    cases hstep : stepPlugin vp p with
    | skip => simp [executeLoop, hstep, ih hps]
    | push r => simp [executeLoop, hstep, ih hps]
    | pushBreak r => simp [hstep, PluginOutcome.isBreak] at hp

theorem invokedLoop_append {vp : Payload} {ps : List HooksPlugin}
    (qs : List HooksPlugin)
    (h : ∀ q ∈ ps, (stepPlugin vp q).isBreak = false) :
    invokedLoop (ps ++ qs) vp = invokedLoop ps vp ++ invokedLoop qs vp := by
  induction ps with
  | nil => simp [invokedLoop]
  | cons p ps ih =>
    have hp := h p (by simp)
    have hps : ∀ q ∈ ps, (stepPlugin vp q).isBreak = false :=
      fun q hq => h q (by simp [hq])
    cases hstep : stepPlugin vp p with
    | skip => simp [invokedLoop, hstep, ih hps]
    | push r => simp [invokedLoop, hstep, ih hps]
    | pushBreak r => simp [hstep, PluginOutcome.isBreak] at hp

/-- A `block` response found in the loop's output is its last element:
the loop stops at the first `block`. -/
theorem find_block_isLast {vp : Payload} :
    ∀ {ps : List HooksPlugin} {b : HookResponse},
    (executeLoop ps vp).find? (fun r => r.action == HookAction.block) =
      some b →
    (executeLoop ps vp).getLast? = some b := by
  intro ps
  induction ps with
  | nil => intro b h; simp [executeLoop] at h
  | cons p ps ih =>
    intro b h
    cases hstep : stepPlugin vp p with
    | skip =>
      simp only [executeLoop, hstep] at h ⊢
      exact ih h
    | push r =>
      have hr := step_push_not_block hstep
      simp only [executeLoop, hstep] at h ⊢
      rw [List.find?_cons_of_neg _ (by simp [hr])] at h
      have hmem := List.mem_of_find?_eq_some h
      have hne := List.ne_nil_of_mem hmem
      rcases hl : executeLoop ps vp with _ | ⟨x, xs⟩
      · exact absurd hl hne
      · rw [hl] at h
        rw [List.getLast?_cons_cons]
        rw [← hl] at h ⊢
        exact ih h
    | pushBreak r =>
      have hr := step_break_block hstep
      simp only [executeLoop, hstep] at h ⊢
      rw [List.find?_cons_of_pos _ (by simp [hr])] at h
      cases h
      rfl

/-- Two plugins with the same loop-step outcome are interchangeable in the
loop, whatever surrounds them. -/
theorem executeLoop_congr_step {vp : Payload} {p q : HooksPlugin}
    (hpq : stepPlugin vp p = stepPlugin vp q) :
    ∀ ps qs : List HooksPlugin,
    executeLoop (ps ++ p :: qs) vp = executeLoop (ps ++ q :: qs) vp := by
  intro ps qs
  induction ps with
  | nil =>
    simp only [List.nil_append, executeLoop]
    rw [hpq]
  | cons a ps ih =>
    simp only [List.cons_append, executeLoop]
    cases hstep : stepPlugin vp a <;> simp [hstep, ih]

/-! ### Claim theorems -/

/-- C1: for every dispatch run whose payload validates, the effective
verdict (`main`'s aggregation of the response sequence) is the first
response with action `block` if one exists — which, by the short-circuit
rule, is also the last appended — otherwise the last response in the
sequence, otherwise `{action: continue}`; in particular dispatching any
event type with an empty plugin list yields `{action: continue}` with no
message. -/
theorem c1_effective_verdict (m : HooksManager) (eventType : String)
    (payload : Json) (vp : Payload)
    (hval : validatePayload eventType payload = .ok vp) :
    (∀ b, (m.executeHooks eventType payload).find?
        (fun r => r.action == HookAction.block) = some b →
      dispatchVerdict m eventType payload = b ∧
      (m.executeHooks eventType payload).getLast? = some b) ∧
    ((m.executeHooks eventType payload).find?
        (fun r => r.action == HookAction.block) = none →
      dispatchVerdict m eventType payload =
        ((m.executeHooks eventType payload).getLast?).getD
          { action := .«continue» }) ∧
    (m.plugins = [] →
      dispatchVerdict m eventType payload =
        { action := .«continue», message := none,
          modified_input := none, context := none }) := by
  refine ⟨?_, ?_, ?_⟩
  · intro b hfind
    refine ⟨?_, ?_⟩
    · simp [dispatchVerdict, effectiveVerdict, hfind]
    · have hrun : m.executeHooks eventType payload = executeLoop m.plugins vp := by
        simp [HooksManager.executeHooks, hval]
      rw [hrun] at hfind ⊢
      exact find_block_isLast hfind
  · intro hnone
    simp only [dispatchVerdict, effectiveVerdict, hnone]
    cases hlast : (m.executeHooks eventType payload).getLast? <;> simp [hlast]
  · intro hplugins
    simp [dispatchVerdict, HooksManager.executeHooks, hval, hplugins,
      executeLoop, effectiveVerdict]

/-- Witness for C1: dispatching a valid `SessionStart` payload with no
plugins registered yields the bare `continue` verdict. -/
theorem c1_witness :
    dispatchVerdict { plugins := [], permissions := none } "SessionStart"
      sessionStartJson =
      { action := .«continue», message := none,
        modified_input := none, context := none } :=
  (c1_effective_verdict { plugins := [], permissions := none }
    "SessionStart" sessionStartJson vpEx rfl).2.2 rfl

/-- C2: once a plugin's validated response has action `block`
(`stepPlugin` yields `pushBreak`), the plugins after it contribute nothing
to the dispatch run: the response sequence ends at the block response and
the loop body (its `onLoad` and handler invocation) runs for no plugin
after the blocking one, whatever plugins follow. -/
theorem c2_short_circuit (vp : Payload) (ps qs : List HooksPlugin)
    (p : HooksPlugin) (r : HookResponse)
    (hps : ∀ q ∈ ps, (stepPlugin vp q).isBreak = false)
    (hp : stepPlugin vp p = .pushBreak r) :
    executeLoop (ps ++ p :: qs) vp = executeLoop ps vp ++ [r] ∧
    invokedLoop (ps ++ p :: qs) vp = invokedLoop ps vp ++ [p.name] := by
  refine ⟨?_, ?_⟩
  · rw [executeLoop_append (p :: qs) hps]
    simp [executeLoop, hp]
  · rw [invokedLoop_append (p :: qs) hps]
    simp [invokedLoop, hp]

/-- Witness for C2: with a blocking plugin followed by another plugin, the
run stops at the block — the second plugin is never reached. -/
theorem c2_witness :
    executeLoop [blockerPlugin, contPlugin] vpEx = [blockResp] ∧
    invokedLoop [blockerPlugin, contPlugin] vpEx = ["blocker"] := by
  have h := c2_short_circuit vpEx [] [contPlugin] blockerPlugin blockResp
    (by simp) rfl
  simpa [blockerPlugin] using h

/-- C3: whenever the raw payload fails its event type's schema,
`executeHooks` enters the plugin loop for no plugin (so no handler ever
observes an invalid payload) and the dispatch result is a single
`{action: continue}` response whose message is a non-empty diagnostic. -/
theorem c3_validation_gate (m : HooksManager) (eventType : String)
    (payload : Json) (e : String)
    (hval : validatePayload eventType payload = .error e) :
    m.executeHooks eventType payload =
      [{ action := .«continue»,
         message := some ("Invalid payload: " ++ e) }] ∧
    m.invokedHooks eventType payload = [] ∧
    "Invalid payload: " ++ e ≠ "" := by
  refine ⟨?_, ?_, ?_⟩
  · simp [HooksManager.executeHooks, hval]
  · simp [HooksManager.invokedHooks, hval]
  · intro hcontra
    have hlen := congrArg String.length hcontra
    have h17 : ("Invalid payload: " : String).length = 17 := rfl
    have h0 : ("" : String).length = 0 := rfl
    rw [String.length_append, h17, h0] at hlen
    omega

/-- Witness for C3: a `PreToolUse` payload missing all required fields is
rejected, no plugin runs, and the diagnostic response is returned. -/
theorem c3_witness :
    validatePayload "PreToolUse" (Json.obj []) =
      .error "tool_name: Required" ∧
    HooksManager.executeHooks
        { plugins := [blockerPlugin], permissions := none }
        "PreToolUse" (Json.obj []) =
      [{ action := .«continue»,
         message := some "Invalid payload: tool_name: Required" }] ∧
    HooksManager.invokedHooks
        { plugins := [blockerPlugin], permissions := none }
        "PreToolUse" (Json.obj []) = [] := by
  have h := c3_validation_gate
    { plugins := [blockerPlugin], permissions := none }
    "PreToolUse" (Json.obj []) "tool_name: Required" rfl
  exact ⟨rfl, h.1, h.2.1⟩

/-- C4: a plugin whose handler invocation throws, or returns a truthy
value that fails the `HookResponse` contract, contributes a substituted
`{action: continue}` diagnostic response to the sequence, and the loop
continues with the remaining plugins — the failure never aborts the run
and the caller sees only well-formed responses. -/
theorem c4_fail_open (vp : Payload) (ps qs : List HooksPlugin)
    (p : HooksPlugin) (e : String)
    (hps : ∀ q ∈ ps, (stepPlugin vp q).isBreak = false) :
    (loadOutcome p = .ok () → invokeHandler p vp = some (.throws e) →
      executeLoop (ps ++ p :: qs) vp =
        executeLoop ps vp ++
          ({ action := .«continue»,
             message := some ("Plugin error: " ++ e) } ::
            executeLoop qs vp)) ∧
    (∀ j, loadOutcome p = .ok () →
      invokeHandler p vp = some (.value (some j)) →
      j.truthy = true → parseHookResponse j = .error e →
      executeLoop (ps ++ p :: qs) vp =
        executeLoop ps vp ++
          ({ action := .«continue»,
             message := some ("Plugin returned invalid response: " ++ e) } ::
            executeLoop qs vp)) := by
  constructor
  · intro hload hinvoke
    rw [executeLoop_append (p :: qs) hps]
    have hstep : stepPlugin vp p =
        .push { action := .«continue»,
                message := some ("Plugin error: " ++ e) } := by
      simp [stepPlugin, hload, hinvoke]
    simp [executeLoop, hstep]
  · intro j hload hinvoke htruthy hparse
    rw [executeLoop_append (p :: qs) hps]
    have hstep : stepPlugin vp p =
        .push { action := .«continue»,
                message := some ("Plugin returned invalid response: " ++ e) } := by
      simp [stepPlugin, hload, hinvoke, htruthy, hparse]
    simp [executeLoop, hstep]

/-- Witness for C4: a throwing handler yields a diagnostic `continue`
response and the next plugin still runs and contributes its response. -/
theorem c4_witness :
    executeLoop [throwPlugin, contPlugin] vpEx =
      [{ action := .«continue», message := some "Plugin error: boom" },
       { action := .«continue» }] := by
  have h := (c4_fail_open vpEx [] [contPlugin] throwPlugin "boom"
    (by simp)).1 rfl rfl
  simpa using h

/-- C5 counterexample: dispatching an event type outside the closed
enumeration does not surface any error to the caller — `executeHooks`
catches its own `Unknown event type` throw in the payload-validation
`catch` and returns an `{action: continue}` response, so the claim that
such a dispatch "is never silently converted into a continue response"
is false. -/
theorem c5_counterexample :
    HooksManager.executeHooks { plugins := [], permissions := none }
        "ConfigChange" Json.null =
      [{ action := .«continue»,
         message := some "Invalid payload: Unknown event type: ConfigChange" }] ∧
    (dispatchVerdict { plugins := [], permissions := none }
        "ConfigChange" Json.null).action = HookAction.«continue» :=
  ⟨rfl, rfl⟩

/-- C5 (amended): for every dispatch call whose event type is outside the
closed eight-member enumeration, the internal `Unknown event type` error is
caught by the same handler as a payload-validation failure and the call
returns a single `{action: continue}` response carrying the diagnostic
`Invalid payload: Unknown event type: <eventType>`; no error reaches the
caller and the effective verdict is `continue`. -/
theorem c5_unknown_event (m : HooksManager) (eventType : String)
    (payload : Json)
    (h : eventType ∉ ["PreToolUse", "PostToolUse", "Notification",
      "UserPromptSubmit", "Stop", "SubagentStop", "PreCompact",
      "SessionStart"]) :
    m.executeHooks eventType payload =
      [{ action := .«continue»,
         message := some ("Invalid payload: Unknown event type: " ++
           eventType) }] ∧
    (dispatchVerdict m eventType payload).action = HookAction.«continue» := by
  simp only [List.mem_cons, List.mem_singleton, not_or] at h
  obtain ⟨h1, h2, h3, h4, h5, h6, h7, h8⟩ := h
  have hval : validatePayload eventType payload =
      .error ("Unknown event type: " ++ eventType) := by
    simp [validatePayload, h1, h2, h3, h4, h5, h6, h7, h8]
  refine ⟨?_, ?_⟩
  · simp only [HooksManager.executeHooks, hval]
    rw [← String.append_assoc]
    exact rfl
  · simp [dispatchVerdict, HooksManager.executeHooks, hval, effectiveVerdict]

/-- Witness for C5 (amended): the unknown event type `"Bogus"`. -/
theorem c5_witness :
    HooksManager.executeHooks { plugins := [], permissions := none }
        "Bogus" (Json.obj []) =
      [{ action := .«continue»,
         message := some "Invalid payload: Unknown event type: Bogus" }] := by
  have h := c5_unknown_event { plugins := [], permissions := none }
    "Bogus" (Json.obj []) (by decide)
  simpa using h.1

/-- The descriptor of the spec's permission round-trip example:
`{allow: {read: ["."], write: true}}`. -/
def roundTripPerms : Permissions :=
  { allow := some { read := some (.list ["."]), write := some (.bool true) } }

/-- C6: resolving a permission descriptor emits, per capability in the
fixed order read, write, net, env, run, sys: one scoped flag per listed
resource preserving the list's order, one unscoped allow-all flag for
boolean `true`, and nothing for an absent key or `false`; the round-trip
example resolves to exactly `["--allow-read=.", "--allow-write"]`, and
resolution is a pure function of the descriptor, hence deterministic. -/
theorem c6_permission_resolution :
    (∀ (a : AllowPerms) (d : Option DenyPerms),
      permissionFlags { allow := some a, deny := d } =
        capFlags "read" a.read ++ capFlags "write" a.write ++
        capFlags "net" a.net ++ capFlags "env" a.env ++
        capFlags "run" a.run ++ capFlags "sys" a.sys) ∧
    (∀ (capName : String) (xs : List String),
      capFlags capName (some (.list xs)) =
        xs.map (fun r => "--allow-" ++ capName ++ "=" ++ r)) ∧
    (∀ capName : String,
      capFlags capName (some (.bool true)) = ["--allow-" ++ capName]) ∧
    (∀ capName : String, capFlags capName none = []) ∧
    (∀ capName : String, capFlags capName (some (.bool false)) = []) ∧
    permissionFlags roundTripPerms = ["--allow-read=.", "--allow-write"] ∧
    (∀ perms : Permissions, permissionFlags perms = permissionFlags perms) :=
  ⟨fun _ _ => rfl, fun _ _ => rfl, fun _ => rfl, fun _ => rfl, fun _ => rfl,
    rfl, fun _ => rfl⟩

/-- A descriptor whose `deny` section forbids writing to `/etc`
(the shape used by `file-validator` in `src/examples/example-hooks.ts`). -/
def denyPerms : Permissions :=
  { allow := some {}, deny := some { write := some ["/etc"] } }

/-- C7 (code bug): `runHooksFile` never reads the `deny` section of the
descriptor — the resolved flag list is unchanged by any `deny` entries,
and the concrete descriptor denying writes to `/etc` resolves to no flag
at all, contradicting the claim (and the spec, the schema's `deny` field
and the example plugin's intent) that deny entries are emitted as negative
scoped flags narrowing the grant. -/
theorem c7_deny_ignored :
    (∀ (a : Option AllowPerms) (d d' : Option DenyPerms),
      permissionFlags { allow := a, deny := d } =
        permissionFlags { allow := a, deny := d' }) ∧
    permissionFlags denyPerms = [] :=
  ⟨fun _ _ _ => rfl, rfl⟩

/-- C8 counterexample: registering a plugin whose name is empty does not
fail — `use` appends it to the plugin list unconditionally, so the claim
that registration fails exactly for empty names is false. -/
theorem c8_counterexample :
    emptyNamePlugin.name = "" ∧
    (HooksManager.use { plugins := [], permissions := none }
        emptyNamePlugin).getPlugins = [emptyNamePlugin] :=
  ⟨rfl, rfl⟩

/-- C8 (amended): registering a plugin always succeeds, whatever its name:
`use` appends the plugin to the end of the ordered plugin list (the
invocation order used by dispatch), leaving earlier registrations and the
manager's permissions unchanged. -/
theorem c8_use_appends (m : HooksManager) (p : HooksPlugin) :
    (m.use p).plugins = m.plugins ++ [p] ∧
    (m.use p).plugins.take m.plugins.length = m.plugins ∧
    (m.use p).permissions = m.permissions := by
  refine ⟨rfl, ?_, rfl⟩
  exact List.take_left m.plugins [p]

/-- C9: `hooks(config)` returns a manager whose plugin list begins with a
synthetic plugin named `inline-hooks` (version `0.0.0`) carrying the
config's own handler callbacks, followed by `config.plugins` in their
given order; consequently the inline handlers are reached first in every
dispatch run (the first invoked plugin is `inline-hooks`) and a `block`
from them short-circuits all listed plugins. -/
theorem c9_inline_hooks_first (c : HooksConfig) :
    ((hooks c).plugins = inlinePlugin c :: c.plugins.getD [] ∧
      (inlinePlugin c).name = "inline-hooks" ∧
      (inlinePlugin c).version = some "0.0.0" ∧
      (inlinePlugin c).onPreToolUse = c.onPreToolUse ∧
      (inlinePlugin c).onPostToolUse = c.onPostToolUse ∧
      (inlinePlugin c).onNotification = c.onNotification ∧
      (inlinePlugin c).onUserPromptSubmit = c.onUserPromptSubmit ∧
      (inlinePlugin c).onStop = c.onStop ∧
      (inlinePlugin c).onSubagentStop = c.onSubagentStop ∧
      (inlinePlugin c).onPreCompact = c.onPreCompact ∧
      (inlinePlugin c).onSessionStart = c.onSessionStart) ∧
    (∀ vp : Payload,
      (invokedLoop (hooks c).plugins vp).head? = some "inline-hooks") ∧
    (∀ (vp : Payload) (r : HookResponse),
      stepPlugin vp (inlinePlugin c) = .pushBreak r →
      executeLoop (hooks c).plugins vp = [r]) := by
  refine ⟨⟨rfl, rfl, rfl, rfl, rfl, rfl, rfl, rfl, rfl, rfl, rfl⟩, ?_, ?_⟩
  · intro vp
    cases hstep : stepPlugin vp (inlinePlugin c) <;>
      · simp only [hooks, HooksManager.ofConfig, Option.getD_some,
          invokedLoop, hstep]
        rfl
  · intro vp r hblock
    simp [hooks, HooksManager.ofConfig, executeLoop, hblock]

/-- Config used to witness C9: inline `SessionStart` handler that blocks,
plus one listed plugin. -/
def hooksCfgEx : HooksConfig :=
  { plugins := some [contPlugin],
    onSessionStart := some (fun _ => .value (some blockRespJson)) }

/-- Witness for C9: the inline handler's `block` is the whole dispatch
result; the listed plugin never contributes. -/
theorem c9_witness :
    executeLoop (hooks hooksCfgEx).plugins vpEx = [blockResp] ∧
    (invokedLoop (hooks hooksCfgEx).plugins vpEx).head? =
      some "inline-hooks" := by
  have h := c9_inline_hooks_first hooksCfgEx
  exact ⟨h.2.2 vpEx blockResp rfl, h.2.1 vpEx⟩

/-- A handler invocation result is falsy (returned `undefined`, `null`, or
another falsy value), so `if (result)` skips response handling. -/
def falsyResult (p : HooksPlugin) (vp : Payload) : Prop :=
  match invokeHandler p vp with
  | some (.value none) => True
  | some (.value (some j)) => j.truthy = false
  | _ => False

/-- C10: a plugin whose handler exists but returns a falsy value
(`undefined`/`null`) contributes no response — the value bypasses
`HookResponse` validation and produces no diagnostic — and the dispatch
result is identical to that of a plugin with no handler bound to the
event, in any surrounding plugin list. -/
theorem c10_falsy_result_skipped (ps qs : List HooksPlugin) (vp : Payload)
    (p q : HooksPlugin)
    (hp : falsyResult p vp) (hpl : loadOutcome p = .ok ())
    (hq : invokeHandler q vp = none) (hql : loadOutcome q = .ok ()) :
    stepPlugin vp p = .skip ∧
    stepPlugin vp q = .skip ∧
    executeLoop (ps ++ p :: qs) vp = executeLoop (ps ++ q :: qs) vp := by
  have hsp : stepPlugin vp p = .skip := by
    unfold falsyResult at hp
    rcases hinvoke : invokeHandler p vp with _ | hres
    · rw [hinvoke] at hp
      exact hp.elim
    · rcases hres with e | v
      · rw [hinvoke] at hp
        exact hp.elim
      · rcases v with _ | j
        · simp [stepPlugin, hpl, hinvoke]
        · rw [hinvoke] at hp
          simp [stepPlugin, hpl, hinvoke, hp]
  have hsq : stepPlugin vp q = .skip := by
    simp [stepPlugin, hql, hq]
  exact ⟨hsp, hsq, executeLoop_congr_step (hsp.trans hsq.symm) ps qs⟩

/-- Witness for C10: a handler returning `undefined` leaves the dispatch
result exactly that of a plugin with no handler at all. -/
theorem c10_witness :
    stepPlugin vpEx undefinedPlugin = .skip ∧
    executeLoop [undefinedPlugin, contPlugin] vpEx =
      executeLoop [noHandlerPlugin, contPlugin] vpEx := by
  have h := c10_falsy_result_skipped [] [contPlugin] vpEx
    undefinedPlugin noHandlerPlugin (by trivial) rfl rfl rfl
  exact ⟨h.1, h.2.2⟩

end ClaudeTools
